import Mathlib

/-
Verification of the PRDD (Panda Resilient Distributed Dataset) layer of
sparklingpandas, file pandaspark/prdd.py.

A PRDD wraps a pyspark RDD whose elements are pandas DataFrames. We shallowly
embed:
  - an RDD as its list of partitions, each a list of elements; `map` maps over
    every element, `mapPartitions` maps over the partition lists, and `reduce`
    follows pyspark semantics: every nonempty partition is left-folded locally,
    the per-partition results are gathered, and then left-folded again; an
    empty RDD has no reduction result (pyspark raises), modelled as `none`;
  - a pandas DataFrame as a list of column labels plus a list of rows, each
    row a list of cells; `applymap f` applies f to every cell, `append`
    row-concatenates (pandas DataFrame.append), and indexing `df[k]` projects
    column k out as a Series (its list of values);
  - the PRDD methods from prdd.py: `fromRDD` (and the constructor), `applymap`,
    `__getitem__` (here `getItem`), `collect` (reduce with append) and `stats`
    (per-partition ColumnStatCounters, reduced with merge_stats).

The class ColumnStatCounters lives in pandaspark/col_stat_counters.py, which is
not part of the sources available here; it is modelled from the specification
(a per-column accumulator of count, mean, standard deviation, max and min with
an associative commutative merge, built per partition and failing when the
column list is empty or a requested label is absent). Failure of an eager
action is modelled by `Option`: `none` is a raised error.
-/

namespace Pandaspark

/-- A distributed collection: the list of its partitions. -/
structure RDD (α : Type) where
  partitions : List (List α)
deriving DecidableEq

/-- Elementwise map, preserving the partition structure (pyspark RDD.map). -/
def RDD.map {α β : Type} (r : RDD α) (f : α → β) : RDD β :=
  ⟨r.partitions.map (List.map f)⟩

/-- Partitionwise map (pyspark RDD.mapPartitions with a list-valued function). -/
def RDD.mapPartitions {α β : Type} (r : RDD α) (g : List α → List β) : RDD β :=
  ⟨r.partitions.map g⟩

/-- Left-fold reduction of one list, taking its head as the seed; `none` on an
empty list (pyspark raises on an empty reduction). -/
def lreduce {α : Type} (f : α → α → α) : List α → Option α
  | [] => none
  | x :: xs => some (xs.foldl f x)

/-- Pyspark RDD.reduce: each nonempty partition is reduced locally, empty
partitions contribute nothing, and the gathered per-partition results are
reduced again; `none` when no partition produced a value. -/
def RDD.reduce {α : Type} (r : RDD α) (f : α → α → α) : Option α :=
  lreduce f (r.partitions.filterMap (lreduce f))

/-- A cell of a pandas DataFrame used by the stats scenario: either a string
or a (rational-modelled) number. -/
inductive Cell where
  | str : String → Cell
  | num : ℚ → Cell
deriving DecidableEq

/-- A pandas DataFrame: labelled columns and rows of cells. -/
structure DataFrame (α : Type) where
  cols : List String
  rows : List (List α)
deriving DecidableEq

/-- A pandas Series: the list of its values. -/
structure Series (α : Type) where
  vals : List α
deriving DecidableEq

/-- Pandas DataFrame.applymap: apply f to every cell. -/
def DataFrame.applymap {α β : Type} (df : DataFrame α) (f : α → β) : DataFrame β :=
  ⟨df.cols, df.rows.map (List.map f)⟩

/-- Pandas row-wise concatenation DataFrame.append (same-schema blocks). -/
def DataFrame.append {α : Type} (a b : DataFrame α) : DataFrame α :=
  ⟨a.cols, a.rows ++ b.rows⟩

/-- Pandas Series.append: concatenation of the values. -/
def Series.append {α : Type} (a b : Series α) : Series α :=
  ⟨a.vals ++ b.vals⟩

/-- Position of a column label in the label list. -/
def colIndex (cols : List String) (k : String) : Option ℕ :=
  match cols with
  | [] => none
  | c :: cs => if c = k then some 0 else (colIndex cs k).map (· + 1)

/-- The values of column k of a DataFrame (the rows projected at the position
of k among the labels). -/
def DataFrame.colCells {α : Type} (df : DataFrame α) (k : String) : List α :=
  match colIndex df.cols k with
  | some i => df.rows.filterMap (fun r => r.get? i)
  | none => []

/-- Pandas column indexing df[k], as the Series of the column values. -/
def DataFrame.getItem {α : Type} (df : DataFrame α) (k : String) : Series α :=
  ⟨df.colCells k⟩

/-- The direct concatenation of a list of same-schema blocks: the columns of
the first block over all rows in order. -/
def concatBlocks {α : Type} (dfs : List (DataFrame α)) : DataFrame α :=
  match dfs with
  | [] => ⟨[], []⟩
  | d :: _ => ⟨d.cols, (dfs.map DataFrame.rows).flatten⟩

/-- The elements to which `collect` delegates their `append` method. -/
class Appendable (β : Type) where
  append : β → β → β

instance {α : Type} : Appendable (DataFrame α) := ⟨DataFrame.append⟩

instance {α : Type} : Appendable (Series α) := ⟨Series.append⟩

/-- The PRDD wrapper: it holds the underlying RDD in its only field. -/
structure PRDD (β : Type) where
  _rdd : RDD β
deriving DecidableEq

/-- PRDD.fromRDD: wrap an RDD with no checking or validation. -/
def PRDD.fromRDD {β : Type} (rdd : RDD β) : PRDD β :=
  PRDD.mk rdd

/-- PRDD.applymap: map pandas applymap over every DataFrame of the RDD. -/
def PRDD.applymap {α β : Type} (p : PRDD (DataFrame α)) (f : α → β) :
    PRDD (DataFrame β) :=
  PRDD.fromRDD (p._rdd.map (fun data => data.applymap f))

/-- PRDD.__getitem__: project the key out of every element. -/
def PRDD.getItem {α : Type} (p : PRDD (DataFrame α)) (key : String) :
    PRDD (Series α) :=
  PRDD.fromRDD (p._rdd.map (fun x => x.getItem key))

/-- PRDD.collect: reduce the RDD with elementwise append. -/
def PRDD.collect {β : Type} [Appendable β] (p : PRDD β) : Option β :=
  p._rdd.reduce Appendable.append

/-- Modelled from the spec: one per-column running aggregate of a
ColumnStatCounters. It keeps the count, the sum and the sum of squares (from
which mean and standard deviation derive), and the min and max, `none` when no
value was seen. -/
structure StatCounter where
  count : ℕ
  sum : ℚ
  sumSq : ℚ
  minVal : Option ℚ
  maxVal : Option ℚ
deriving DecidableEq

/-- Minimum of two optional values, `none` acting as the neutral element. -/
def omin (a b : Option ℚ) : Option ℚ :=
  match a, b with
  | none, b => b
  | some x, none => some x
  | some x, some y => some (min x y)

/-- Maximum of two optional values, `none` acting as the neutral element. -/
def omax (a b : Option ℚ) : Option ℚ :=
  match a, b with
  | none, b => b
  | some x, none => some x
  | some x, some y => some (max x y)

/-- Minimum of a list of values, `none` on the empty list. -/
def ominList (vs : List ℚ) : Option ℚ :=
  vs.foldr (fun v acc => omin (some v) acc) none

/-- Maximum of a list of values, `none` on the empty list. -/
def omaxList (vs : List ℚ) : Option ℚ :=
  vs.foldr (fun v acc => omax (some v) acc) none

/-- Modelled from the spec: the accumulator of one column over a concrete list
of values. -/
def counterOfVals (vs : List ℚ) : StatCounter :=
  ⟨vs.length, vs.sum, (vs.map (fun v => v * v)).sum, ominList vs, omaxList vs⟩

/-- Modelled from the spec: merging two per-column accumulators (counts, sums
and sums of squares add; min and max combine). -/
def mergeCounter (a b : StatCounter) : StatCounter :=
  ⟨a.count + b.count, a.sum + b.sum, a.sumSq + b.sumSq,
    omin a.minVal b.minVal, omax a.maxVal b.maxVal⟩

/-- Mean of an accumulator: sum over count. -/
def StatCounter.mean (c : StatCounter) : ℚ :=
  c.sum / (c.count : ℚ)

/-- Population variance of an accumulator (the square of the standard
deviation reported by stats): mean of the squares minus square of the mean. -/
def StatCounter.variance (c : StatCounter) : ℚ :=
  c.sumSq / (c.count : ℚ) - c.mean * c.mean

/-- Modelled from the spec: a ColumnStatCounters, the per-partition statistics
accumulator of pandaspark/col_stat_counters.py (absent from the sources): one
labelled StatCounter per requested column, in the order requested. -/
structure ColumnStatCounters where
  counters : List (String × StatCounter)
deriving DecidableEq

/-- Turn a list of optional values into an optional list: `none` as soon as
one entry is `none`. -/
def seqOption {α : Type} : List (Option α) → Option (List α)
  | [] => some []
  | o :: os => o.bind (fun x => (seqOption os).map (fun xs => x :: xs))

/-- The numeric values of column c of one DataFrame: `none` when the label is
absent, a row is too short, or a cell is not numeric. -/
def dfColNums (df : DataFrame Cell) (c : String) : Option (List ℚ) :=
  match colIndex df.cols c with
  | some i => seqOption (df.rows.map (fun r => (r.get? i).bind
      (fun cell => match cell with
        | Cell.num q => some q
        | Cell.str _ => none)))
  | none => none

/-- The numeric values of column c over all DataFrames of one partition, in
order; `none` when any DataFrame fails. -/
def partColNums (dfs : List (DataFrame Cell)) (c : String) : Option (List ℚ) :=
  (seqOption (dfs.map (fun df => dfColNums df c))).map List.flatten

/-- Modelled from the spec: building the ColumnStatCounters of one partition.
It fails when the column list is empty or a requested label is absent from
some block of the partition (or a requested value is not numeric). -/
def ColumnStatCounters.make (dataframes : List (DataFrame Cell))
    (columns : List String) : Option ColumnStatCounters :=
  if columns.isEmpty then none
  else (seqOption (columns.map (fun c =>
    (partColNums dataframes c).map (fun vs => (c, counterOfVals vs))))).map
      ColumnStatCounters.mk

/-- Merging one labelled accumulator with another: the label of the left one
is kept and the counters merge. -/
def mergePair (x y : String × StatCounter) : String × StatCounter :=
  (x.1, mergeCounter x.2 y.2)

/-- Modelled from the spec: ColumnStatCounters.merge_stats, merging the
accumulators column by column. -/
def ColumnStatCounters.merge_stats (a b : ColumnStatCounters) :
    ColumnStatCounters :=
  ⟨List.zipWith mergePair a.counters b.counters⟩

/-- The reduce function of PRDD.stats lifted to fallible accumulators: an
error on either side propagates. -/
def mergeOpt (a b : Option ColumnStatCounters) : Option ColumnStatCounters :=
  a.bind (fun x => b.map (fun y => x.merge_stats y))

/-- PRDD.stats: build one ColumnStatCounters per partition with mapPartitions,
then reduce them pairwise with merge_stats. `none` models the raised error:
no partition at all, or a failed accumulator construction. -/
def PRDD.stats (p : PRDD (DataFrame Cell)) (columns : List String) :
    Option ColumnStatCounters :=
  ((p._rdd.mapPartitions
      (fun i => [ColumnStatCounters.make i columns])).reduce mergeOpt).join

/-
State-passing embeddings of the four methods: each one returns the state of
the receiver after the call next to the call result. The method bodies in
prdd.py only ever read self._rdd and never assign it, so the post-state is the
wrapper rebuilt around the one field that was read.
-/

/-- State-passing PRDD.applymap: (receiver after the call, result). -/
def PRDD.applymapS {α β : Type} (p : PRDD (DataFrame α)) (f : α → β) :
    PRDD (DataFrame α) × PRDD (DataFrame β) :=
  (PRDD.mk p._rdd, PRDD.fromRDD (p._rdd.map (fun data => data.applymap f)))

/-- State-passing PRDD.__getitem__: (receiver after the call, result). -/
def PRDD.getItemS {α : Type} (p : PRDD (DataFrame α)) (key : String) :
    PRDD (DataFrame α) × PRDD (Series α) :=
  (PRDD.mk p._rdd, PRDD.fromRDD (p._rdd.map (fun x => x.getItem key)))

/-- State-passing PRDD.collect: (receiver after the call, result). -/
def PRDD.collectS {β : Type} [Appendable β] (p : PRDD β) :
    PRDD β × Option β :=
  (PRDD.mk p._rdd, p._rdd.reduce Appendable.append)

/-- State-passing PRDD.stats: (receiver after the call, result). -/
def PRDD.statsS (p : PRDD (DataFrame Cell)) (columns : List String) :
    PRDD (DataFrame Cell) × Option ColumnStatCounters :=
  (PRDD.mk p._rdd,
    ((p._rdd.mapPartitions
      (fun i => [ColumnStatCounters.make i columns])).reduce mergeOpt).join)

/-- The block of the stats doctest of prdd.py: rows ("magic",10), ("ninja",20),
("coffee",30) with columns a and b. -/
def scenarioDF : DataFrame Cell :=
  ⟨["a", "b"],
    [[Cell.str "magic", Cell.num 10],
     [Cell.str "ninja", Cell.num 20],
     [Cell.str "coffee", Cell.num 30]]⟩

/-- The scenario block wrapped as a one-partition PRDD. -/
def scenarioPRDD : PRDD (DataFrame Cell) :=
  PRDD.mk ⟨[[scenarioDF]]⟩

/-- The accumulator that stats of the scenario block yields for column b. -/
def scenarioCounter : StatCounter :=
  ⟨3, 60, 1400, some 10, some 30⟩

/-- The truncated standard deviation 8.164965809 the spec quotes for the
scenario. -/
def scenarioStdev : ℚ :=
  8164965809 / 1000000000

/-- The full ColumnStatCounters the scenario yields. -/
def scenarioCSC : ColumnStatCounters :=
  ⟨[("b", scenarioCounter)]⟩

/-- A concrete two-partition RDD of same-schema numeric blocks, used to
instantiate the universally quantified theorems. -/
def exampleRDD : RDD (DataFrame ℕ) :=
  ⟨[[⟨["a", "b"], [[1, 2], [3, 4]]⟩],
    [⟨["a", "b"], [[5, 6]]⟩]]⟩

/-- An empty RDD of blocks. -/
def emptyRDD : RDD (DataFrame ℕ) :=
  ⟨[]⟩

/-- First concrete partition for the stats merge instantiation. -/
def statP1 : List (DataFrame Cell) :=
  [⟨["a", "b"], [[Cell.str "x", Cell.num 1], [Cell.str "y", Cell.num 2]]⟩]

/-- Second concrete partition for the stats merge instantiation. -/
def statP2 : List (DataFrame Cell) :=
  [⟨["a", "b"], [[Cell.str "z", Cell.num 4]]⟩]

/-- The accumulator of statP1 over column b. -/
def statA1 : ColumnStatCounters :=
  ⟨[("b", ⟨2, 3, 5, some 1, some 2⟩)]⟩

/-- The accumulator of statP2 over column b. -/
def statA2 : ColumnStatCounters :=
  ⟨[("b", ⟨1, 4, 16, some 4, some 4⟩)]⟩

/-
Helper lemmas about reductions and folds.
-/

/-- Collect on an RDD of Series appends with Series.append. -/
lemma appendable_series_eq {α : Type} :
    (Appendable.append : Series α → Series α → Series α) = Series.append :=
  rfl

/-- Collect on an RDD of DataFrames appends with DataFrame.append. -/
lemma appendable_df_eq {α : Type} :
    (Appendable.append : DataFrame α → DataFrame α → DataFrame α)
      = DataFrame.append :=
  rfl

/-- Folding an associative operation from a combined seed splits as the outer
application of the operation. -/
lemma foldl_assoc_of {α : Type} (f : α → α → α)
    (h : ∀ a b c, f (f a b) c = f a (f b c)) :
    ∀ (l : List α) (a b : α), l.foldl f (f a b) = f a (l.foldl f b)
  | [], _, _ => rfl
  | x :: xs, a, b => by
    simp only [List.foldl_cons]
    rw [h a b x]
    exact foldl_assoc_of f h xs a (f b x)

/-- The local reductions of a list of partitions headed by a nonempty
partition start with the fold of that partition. -/
lemma filterMap_lreduce_cons {α : Type} (f : α → α → α) (x : α) (xs : List α)
    (ps : List (List α)) :
    ((x :: xs) :: ps).filterMap (lreduce f)
      = xs.foldl f x :: ps.filterMap (lreduce f) := by
  simp [lreduce, List.filterMap_cons]

/-- For an associative operation, folding the local per-partition reductions
equals folding the flattened elements. -/
lemma foldl_filterMap_lreduce {α : Type} (f : α → α → α)
    (h : ∀ a b c, f (f a b) c = f a (f b c)) :
    ∀ (ps : List (List α)) (init : α),
      (ps.filterMap (lreduce f)).foldl f init = ps.flatten.foldl f init
  | [], _ => rfl
  | [] :: ps, init => by
    simpa [lreduce] using foldl_filterMap_lreduce f h ps init
  | (x :: xs) :: ps, init => by
    rw [filterMap_lreduce_cons]
    simp only [List.foldl_cons, List.flatten_cons, List.foldl_append]
    rw [foldl_filterMap_lreduce f h ps]
    congr 1
    rw [foldl_assoc_of f h xs init x]

/-- Pyspark reduce of an associative operation equals the one-pass reduction
over all elements in partition order. -/
lemma RDD.reduce_eq_flatten {α : Type} (r : RDD α) (f : α → α → α)
    (h : ∀ a b c, f (f a b) c = f a (f b c)) :
    r.reduce f = lreduce f r.partitions.flatten := by
  rw [RDD.reduce]
  induction r.partitions with
  | nil => rfl
  | cons p ps ih =>
    cases p with
    | nil => simpa [lreduce] using ih
    | cons x xs =>
      rw [filterMap_lreduce_cons]
      simp only [lreduce, List.flatten_cons, List.cons_append,
        List.foldl_append]
      rw [foldl_filterMap_lreduce f h ps]

/-- Appending DataFrames is associative. -/
lemma dfAppend_assoc {α : Type} (a b c : DataFrame α) :
    (a.append b).append c = a.append (b.append c) := by
  simp [DataFrame.append]

/-- Appending Series is associative. -/
lemma seriesAppend_assoc {α : Type} (a b c : Series α) :
    (a.append b).append c = a.append (b.append c) := by
  simp [Series.append]

/-- The reduction of a nonempty list of Series by append is the Series of all
values in order. -/
lemma lreduce_series_append {α : Type} :
    ∀ (s : Series α) (ss : List (Series α)),
      lreduce Series.append (s :: ss)
        = some ⟨((s :: ss).map Series.vals).flatten⟩ := by
  have key : ∀ (ss : List (Series α)) (acc : Series α),
      ss.foldl Series.append acc = ⟨acc.vals ++ (ss.map Series.vals).flatten⟩ := by
    intro ss
    induction ss with
    | nil => intro acc; simp
    | cons t ts ih =>
      intro acc
      simp only [List.foldl_cons, ih, List.map_cons, List.flatten_cons]
      simp [Series.append]
  intro s ss
  simp [lreduce, key ss s]

/-- The reduction of a nonempty list of DataFrames by append keeps the columns
of the first block and concatenates all rows in order. -/
lemma lreduce_df_append {α : Type} :
    ∀ (d : DataFrame α) (ds : List (DataFrame α)),
      lreduce DataFrame.append (d :: ds)
        = some ⟨d.cols, ((d :: ds).map DataFrame.rows).flatten⟩ := by
  have key : ∀ (ds : List (DataFrame α)) (acc : DataFrame α),
      ds.foldl DataFrame.append acc
        = ⟨acc.cols, acc.rows ++ (ds.map DataFrame.rows).flatten⟩ := by
    intro ds
    induction ds with
    | nil => intro acc; simp
    | cons t ts ih =>
      intro acc
      simp only [List.foldl_cons, ih, List.map_cons, List.flatten_cons]
      simp [DataFrame.append]
  intro d ds
  simp [lreduce, key ds d]

/-- A label in the list has a position. -/
lemma colIndex_of_mem {k : String} :
    ∀ {cols : List String}, k ∈ cols → ∃ i, colIndex cols k = some i := by
  intro cols hmem
  induction cols with
  | nil => cases hmem
  | cons c cs ih =>
    by_cases hc : c = k
    · exact ⟨0, by simp [colIndex, hc]⟩
    · rcases List.mem_cons.mp hmem with h | h
      · exact absurd h.symm hc
      · rcases ih h with ⟨i, hi⟩
        exact ⟨i + 1, by simp [colIndex, hc, hi]⟩

/-- A label with a position is in the list. -/
lemma mem_of_colIndex_some {k : String} :
    ∀ {cols : List String} {i : ℕ}, colIndex cols k = some i → k ∈ cols := by
  intro cols
  induction cols with
  | nil => intro i h; simp [colIndex] at h
  | cons c cs ih =>
    intro i h
    by_cases hc : c = k
    · exact hc ▸ List.mem_cons_self c cs
    · simp only [colIndex, hc, if_false] at h
      rcases Option.map_eq_some'.mp h with ⟨j, hj, _⟩
      exact List.mem_cons_of_mem c (ih hj)

/-
Helper lemmas about the statistics accumulator.
-/

lemma omin_none_left (b : Option ℚ) : omin none b = b := rfl

lemma omin_none_right (a : Option ℚ) : omin a none = a := by
  cases a <;> rfl

lemma omin_comm (a b : Option ℚ) : omin a b = omin b a := by
  cases a <;> cases b <;> simp [omin, min_comm]

lemma omin_assoc (a b c : Option ℚ) :
    omin (omin a b) c = omin a (omin b c) := by
  cases a <;> cases b <;> cases c <;> simp [omin, min_assoc]

lemma omax_none_left (b : Option ℚ) : omax none b = b := rfl

lemma omax_none_right (a : Option ℚ) : omax a none = a := by
  cases a <;> rfl

lemma omax_comm (a b : Option ℚ) : omax a b = omax b a := by
  cases a <;> cases b <;> simp [omax, max_comm]

lemma omax_assoc (a b c : Option ℚ) :
    omax (omax a b) c = omax a (omax b c) := by
  cases a <;> cases b <;> cases c <;> simp [omax, max_assoc]

lemma ominList_append (v1 v2 : List ℚ) :
    ominList (v1 ++ v2) = omin (ominList v1) (ominList v2) := by
  have key : ∀ (l : List ℚ) (x : Option ℚ),
      l.foldr (fun v acc => omin (some v) acc) x
        = omin (ominList l) x := by
    intro l
    induction l with
    | nil => intro x; simp [ominList, omin_none_left]
    | cons v vs ih =>
      intro x
      simp only [List.foldr_cons, ih]
      rw [← omin_assoc]
      rfl
  rw [ominList, List.foldr_append, key]
  rfl

lemma omaxList_append (v1 v2 : List ℚ) :
    omaxList (v1 ++ v2) = omax (omaxList v1) (omaxList v2) := by
  have key : ∀ (l : List ℚ) (x : Option ℚ),
      l.foldr (fun v acc => omax (some v) acc) x
        = omax (omaxList l) x := by
    intro l
    induction l with
    | nil => intro x; simp [omaxList, omax_none_left]
    | cons v vs ih =>
      intro x
      simp only [List.foldr_cons, ih]
      rw [← omax_assoc]
      rfl
  rw [omaxList, List.foldr_append, key]
  rfl

/-- The accumulator of concatenated value lists is the merge of the two
accumulators. -/
lemma counterOfVals_append (v1 v2 : List ℚ) :
    counterOfVals (v1 ++ v2)
      = mergeCounter (counterOfVals v1) (counterOfVals v2) := by
  simp [counterOfVals, mergeCounter, List.length_append, List.sum_append,
    List.map_append, ominList_append, omaxList_append]

lemma mergeCounter_assoc (a b c : StatCounter) :
    mergeCounter (mergeCounter a b) c = mergeCounter a (mergeCounter b c) := by
  simp [mergeCounter, add_assoc, omin_assoc, omax_assoc]

lemma mergeCounter_comm (a b : StatCounter) :
    mergeCounter a b = mergeCounter b a := by
  simp [mergeCounter, add_comm, omin_comm, omax_comm]

lemma mergePair_assoc (x y z : String × StatCounter) :
    mergePair (mergePair x y) z = mergePair x (mergePair y z) := by
  simp [mergePair, mergeCounter_assoc]

/-- Columnwise merging of labelled accumulator lists is associative. -/
lemma zipWith_mergePair_assoc :
    ∀ (a b c : List (String × StatCounter)),
      List.zipWith mergePair (List.zipWith mergePair a b) c
        = List.zipWith mergePair a (List.zipWith mergePair b c)
  | [], _, _ => rfl
  | _ :: _, [], _ => rfl
  | _ :: _, _ :: _, [] => rfl
  | x :: a, y :: b, z :: c => by
    simp only [List.zipWith_cons_cons]
    rw [mergePair_assoc, zipWith_mergePair_assoc a b c]

/-- Columnwise merging of labelled accumulator lists over the same labels is
commutative. -/
lemma zipWith_mergePair_comm :
    ∀ (a b : List (String × StatCounter)),
      a.map Prod.fst = b.map Prod.fst →
      List.zipWith mergePair a b = List.zipWith mergePair b a
  | [], [], _ => rfl
  | [], _ :: _, h => by simp at h
  | _ :: _, [], h => by simp at h
  | x :: a, y :: b, h => by
    simp only [List.map_cons, List.cons.injEq] at h
    simp only [List.zipWith_cons_cons]
    rw [zipWith_mergePair_comm a b h.2]
    simp [mergePair, h.1, mergeCounter_comm x.2 y.2]

/-- Associativity of merge_stats. -/
lemma merge_stats_assoc (a b c : ColumnStatCounters) :
    (a.merge_stats b).merge_stats c = a.merge_stats (b.merge_stats c) := by
  simp [ColumnStatCounters.merge_stats, zipWith_mergePair_assoc]

/-- Associativity of the Option-lifted merge used by the stats reduction. -/
lemma mergeOpt_assoc (a b c : Option ColumnStatCounters) :
    mergeOpt (mergeOpt a b) c = mergeOpt a (mergeOpt b c) := by
  cases a <;> cases b <;> cases c <;>
    simp [mergeOpt, merge_stats_assoc]

/-- Sequencing a concatenation of optional lists concatenates the sequenced
halves. -/
lemma seqOption_append {α : Type} :
    ∀ (l1 l2 : List (Option α)),
      seqOption (l1 ++ l2)
        = (seqOption l1).bind (fun a => (seqOption l2).map (fun b => a ++ b))
  | [], l2 => by cases h : seqOption l2 <;> simp [seqOption, h]
  | o :: os, l2 => by
    cases o with
    | none => simp [seqOption]
    | some x =>
      simp only [List.cons_append, seqOption, Option.some_bind, List.append_eq]
      rw [seqOption_append os l2]
      cases h1 : seqOption os <;> cases h2 : seqOption l2 <;> simp [h1, h2]

/-- Every entry of a successfully sequenced list is itself a success. -/
lemma seqOption_some_isSome {α : Type} :
    ∀ {l : List (Option α)} {out : List α},
      seqOption l = some out → ∀ o ∈ l, o.isSome := by
  intro l
  induction l with
  | nil => intro out _ o ho; cases ho
  | cons p ps ih =>
    intro out h o ho
    cases p with
    | none => simp [seqOption] at h
    | some x =>
      simp only [seqOption, Option.some_bind] at h
      rcases Option.map_eq_some'.mp h with ⟨xs, hxs, _⟩
      rcases List.mem_cons.mp ho with rfl | hmem
      · rfl
      · exact ih hxs o hmem

/-- The numeric column values of a concatenation of partitions concatenate. -/
lemma partColNums_append (P1 P2 : List (DataFrame Cell)) (c : String)
    (v1 v2 : List ℚ) (h1 : partColNums P1 c = some v1)
    (h2 : partColNums P2 c = some v2) :
    partColNums (P1 ++ P2) c = some (v1 ++ v2) := by
  rcases Option.map_eq_some'.mp h1 with ⟨w1, hw1, hv1⟩
  rcases Option.map_eq_some'.mp h2 with ⟨w2, hw2, hv2⟩
  rw [partColNums, List.map_append, seqOption_append, hw1, hw2]
  simp [← hv1, ← hv2, List.flatten_append]

/-- The per-column accumulator entries of a concatenation of partitions are
the columnwise merges of the entries of the halves. -/
lemma make_entries_append (P1 P2 : List (DataFrame Cell)) :
    ∀ (cols : List String) (xs ys : List (String × StatCounter)),
      seqOption (cols.map (fun c =>
        (partColNums P1 c).map (fun vs => (c, counterOfVals vs)))) = some xs →
      seqOption (cols.map (fun c =>
        (partColNums P2 c).map (fun vs => (c, counterOfVals vs)))) = some ys →
      seqOption (cols.map (fun c =>
        (partColNums (P1 ++ P2) c).map (fun vs => (c, counterOfVals vs))))
        = some (List.zipWith mergePair xs ys)
  | [], xs, ys, h1, h2 => by
    simp only [List.map_nil, seqOption] at h1 h2 ⊢
    rw [← Option.some_inj.mp h1, ← Option.some_inj.mp h2]
    rfl
  | c :: cols, xs, ys, h1, h2 => by
    simp only [List.map_cons, seqOption] at h1 h2
    rcases hpc1 : partColNums P1 c with _ | v1
    · rw [hpc1] at h1; simp at h1
    rcases hpc2 : partColNums P2 c with _ | v2
    · rw [hpc2] at h2; simp at h2
    rw [hpc1] at h1
    rw [hpc2] at h2
    simp only [Option.map_some', Option.some_bind] at h1 h2
    rcases Option.map_eq_some'.mp h1 with ⟨tl1, htl1, hxs⟩
    rcases Option.map_eq_some'.mp h2 with ⟨tl2, htl2, hys⟩
    have hrec := make_entries_append P1 P2 cols tl1 tl2 htl1 htl2
    simp only [List.map_cons, seqOption,
      partColNums_append P1 P2 c v1 v2 hpc1 hpc2, Option.map_some',
      Option.some_bind, hrec]
    rw [← hxs, ← hys]
    simp [List.zipWith_cons_cons, mergePair, counterOfVals_append]

/-- Merging the accumulators of two partitions gives the accumulator of the
concatenated partition. -/
lemma make_append (P1 P2 : List (DataFrame Cell)) (cols : List String)
    (A1 A2 : ColumnStatCounters)
    (h1 : ColumnStatCounters.make P1 cols = some A1)
    (h2 : ColumnStatCounters.make P2 cols = some A2) :
    ColumnStatCounters.make (P1 ++ P2) cols = some (A1.merge_stats A2) := by
  rw [ColumnStatCounters.make] at h1 h2 ⊢
  by_cases hem : cols.isEmpty
  · rw [if_pos hem] at h1; cases h1
  rw [if_neg hem] at h1 h2 ⊢
  rcases Option.map_eq_some'.mp h1 with ⟨xs, hxs, hA1⟩
  rcases Option.map_eq_some'.mp h2 with ⟨ys, hys, hA2⟩
  rw [make_entries_append P1 P2 cols xs ys hxs hys]
  simp [← hA1, ← hA2, ColumnStatCounters.merge_stats]

/-- Local reductions of singleton partitions are just their single entries. -/
lemma filterMap_lreduce_singleton {α β : Type} (f : β → β → β) (g : α → β) :
    ∀ (ps : List α),
      (ps.map (fun p => [g p])).filterMap (lreduce f) = ps.map g
  | [] => rfl
  | p :: ps => by
    simp only [List.map_cons]
    rw [filterMap_lreduce_cons]
    simp only [List.foldl_nil]
    rw [filterMap_lreduce_singleton f g ps]

/-- The stats action reduces the per-partition accumulators in partition
order. -/
lemma stats_eq_lreduce (r : RDD (DataFrame Cell)) (cols : List String) :
    (PRDD.mk r).stats cols
      = (lreduce mergeOpt (r.partitions.map
          (fun p => ColumnStatCounters.make p cols))).join := by
  rw [PRDD.stats, RDD.reduce, RDD.mapPartitions]
  rw [filterMap_lreduce_singleton]

/-- Folding the fallible merge from a failure stays a failure. -/
lemma foldl_mergeOpt_none :
    ∀ (os : List (Option ColumnStatCounters)),
      os.foldl mergeOpt none = none
  | [] => rfl
  | o :: os => by
    have : mergeOpt none o = none := rfl
    simp only [List.foldl_cons, this]
    exact foldl_mergeOpt_none os

/-- A successful fold of the fallible merge starts from a success and meets
only successes. -/
lemma foldl_mergeOpt_some :
    ∀ (os : List (Option ColumnStatCounters))
      (o : Option ColumnStatCounters) (A : ColumnStatCounters),
      os.foldl mergeOpt o = some A → o.isSome ∧ ∀ x ∈ os, x.isSome
  | [], o, A, h => by
    simp only [List.foldl_nil] at h
    simp [h]
  | y :: os, o, A, h => by
    simp only [List.foldl_cons] at h
    rcases foldl_mergeOpt_some os (mergeOpt o y) A h with ⟨hoy, hos⟩
    rcases o with _ | oc
    · simp [mergeOpt] at hoy
    rcases y with _ | yc
    · simp [mergeOpt] at hoy
    refine ⟨rfl, ?_⟩
    intro x hx
    rcases List.mem_cons.mp hx with rfl | hmem
    · rfl
    · exact hos x hmem

/-- A successful accumulator construction needs a nonempty column list and
every requested label present in every block of the partition. -/
lemma make_some_mem (p : List (DataFrame Cell)) (cols : List String)
    (A : ColumnStatCounters) (h : ColumnStatCounters.make p cols = some A) :
    cols ≠ [] ∧ ∀ df ∈ p, ∀ c ∈ cols, c ∈ df.cols := by
  rw [ColumnStatCounters.make] at h
  by_cases hem : cols.isEmpty
  · rw [if_pos hem] at h; cases h
  rw [if_neg hem] at h
  refine ⟨fun hnil => hem (by simp [hnil]), ?_⟩
  rcases Option.map_eq_some'.mp h with ⟨xs, hxs, _⟩
  intro df hdf c hc
  have hsome := seqOption_some_isSome hxs
    ((partColNums p c).map (fun vs => (c, counterOfVals vs)))
    (List.mem_map_of_mem _ hc)
  rcases hpc : partColNums p c with _ | v
  · rw [hpc] at hsome; cases hsome
  rw [partColNums] at hpc
  rcases Option.map_eq_some'.mp hpc with ⟨w, hw, _⟩
  have hdfc := seqOption_some_isSome hw (dfColNums df c)
    (List.mem_map_of_mem _ hdf)
  rcases hcn : dfColNums df c with _ | v2
  · rw [hcn] at hdfc; cases hdfc
  rw [dfColNums] at hcn
  rcases hci : colIndex df.cols c with _ | i
  · rw [hci] at hcn; cases hcn
  · exact mem_of_colIndex_some hci

/-
The claims.
-/

/-- Claim C4: when the wrapped collection holds no element at all, collect is
the reduction of an empty set and fails (the raised pyspark error is the
`none` result) instead of returning a block. -/
theorem collect_empty_fails {β : Type} [Appendable β] (p : PRDD β)
    (h : p._rdd.partitions.flatten = []) : p.collect = none := by
  rw [PRDD.collect, RDD.reduce]
  have hnil : p._rdd.partitions.filterMap (lreduce Appendable.append) = [] := by
    rw [List.filterMap_eq_nil_iff]
    intro a ha
    rw [List.flatten_eq_nil_iff.mp h a ha]
    rfl
  rw [hnil]
  rfl

/-- Witness for claim C4: the empty RDD makes collect fail. -/
theorem collect_empty_fails_witness :
    (PRDD.mk emptyRDD).collect = none :=
  collect_empty_fails (PRDD.mk emptyRDD) (by decide)

/-- Claim C6: no operation mutates the receiving wrapper: in the
state-passing embedding of each method the receiver after the call equals the
receiver before it, and the call result is the fresh wrapper the plain
operation builds. -/
theorem methods_leave_receiver_unchanged :
    (∀ (α β : Type) (p : PRDD (DataFrame α)) (f : α → β),
        (p.applymapS f).1 = p ∧ (p.applymapS f).2 = p.applymap f) ∧
    (∀ (α : Type) (p : PRDD (DataFrame α)) (key : String),
        (p.getItemS key).1 = p ∧ (p.getItemS key).2 = p.getItem key) ∧
    (∀ (β : Type) (inst : Appendable β) (p : PRDD β),
        (@PRDD.collectS β inst p).1 = p
          ∧ (@PRDD.collectS β inst p).2 = p.collect) ∧
    (∀ (p : PRDD (DataFrame Cell)) (cols : List String),
        (p.statsS cols).1 = p ∧ (p.statsS cols).2 = p.stats cols) :=
  ⟨fun _ _ _ _ => ⟨rfl, rfl⟩, fun _ _ _ => ⟨rfl, rfl⟩,
    fun _ _ _ => ⟨rfl, rfl⟩, fun _ _ => ⟨rfl, rfl⟩⟩

/-- Claim C7: on the doctest block with rows ("magic",10), ("ninja",20),
("coffee",30), stats over column b yields count 3, mean 20, max 30, min 10,
and a variance of 200/3, whose square root the quoted standard deviation
8.164965809 approximates (its square is within one millionth of the
variance). -/
theorem stats_doctest_scenario :
    scenarioPRDD.stats ["b"] = some scenarioCSC
    ∧ scenarioCounter.count = 3
    ∧ scenarioCounter.mean = 20
    ∧ scenarioCounter.maxVal = some 30
    ∧ scenarioCounter.minVal = some 10
    ∧ scenarioCounter.variance = 200 / 3
    ∧ |scenarioStdev * scenarioStdev - scenarioCounter.variance|
        < 1 / 1000000 := by
  refine ⟨?_, rfl, ?_, rfl, rfl, ?_, ?_⟩
  · simp [PRDD.stats, RDD.mapPartitions, RDD.reduce, lreduce,
      ColumnStatCounters.make, seqOption, partColNums, dfColNums, colIndex,
      counterOfVals, ominList, omaxList, omin, omax, scenarioPRDD, scenarioDF,
      scenarioCSC, scenarioCounter, Option.join]
    norm_num
  · norm_num [StatCounter.mean, scenarioCounter]
  · norm_num [StatCounter.variance, StatCounter.mean, scenarioCounter]
  · norm_num [StatCounter.variance, StatCounter.mean, scenarioCounter,
      scenarioStdev, abs]

/-- Claim C8: fromRDD wraps any handle unconditionally: it is a total
function that stores the handle unchanged and untouched, whatever its
contents. -/
theorem fromRDD_wraps_without_validation {β : Type} (rdd : RDD β) :
    (PRDD.fromRDD rdd)._rdd = rdd :=
  rfl

/-- Claim C9: elementwise map with the identity function followed by collect
equals collect of the original wrapper. -/
theorem applymap_id_collect {α : Type} (p : PRDD (DataFrame α)) :
    (p.applymap id).collect = p.collect := by
  have hg : ∀ df : DataFrame α, df.applymap id = df := by
    intro df
    cases df
    simp [DataFrame.applymap]
  have h : p._rdd.map (fun data => data.applymap id) = p._rdd := by
    cases p._rdd with
    | mk parts => simp [RDD.map, hg]
  simp only [PRDD.applymap, PRDD.fromRDD, PRDD.collect, h]

/-- Claim C10: the classmethod constructor fromRDD and direct construction
produce the very same wrapper, so all operations behave identically on
either. -/
theorem fromRDD_eq_constructor {β : Type} (rdd : RDD β) :
    PRDD.fromRDD rdd = PRDD.mk rdd :=
  rfl

/-- Claim C1: over same-schema blocks that all contain the label k, selecting
column k and collecting yields exactly the k-column projection of the direct
concatenation of all blocks in partition order. -/
theorem getItem_collect_projects_concat {α : Type} (r : RDD (DataFrame α))
    (k : String) (C : List String)
    (hne : r.partitions.flatten ≠ [])
    (hcols : ∀ df ∈ r.partitions.flatten, df.cols = C)
    (hk : k ∈ C) :
    ((PRDD.mk r).getItem k).collect
      = some ((concatBlocks r.partitions.flatten).getItem k) := by
  obtain ⟨i, hi⟩ := colIndex_of_mem hk
  simp only [PRDD.collect, PRDD.getItem, PRDD.fromRDD, appendable_series_eq]
  rw [RDD.reduce_eq_flatten _ _ seriesAppend_assoc]
  simp only [RDD.map]
  rw [← List.map_flatten]
  cases hd : r.partitions.flatten with
  | nil => exact absurd hd hne
  | cons d ds =>
    rw [hd] at hcols
    have hpointwise : ∀ df ∈ d :: ds,
        (df.getItem k).vals = df.rows.filterMap (fun row => row.get? i) := by
      intro df hdf
      simp only [DataFrame.getItem, DataFrame.colCells, hcols df hdf, hi]
    have hstep : lreduce Series.append
        (List.map (fun x => x.getItem k) (d :: ds))
        = some ⟨((d :: ds).map (fun df => (df.getItem k).vals)).flatten⟩ := by
      rw [List.map_cons, lreduce_series_append]
      simp [List.map_map, Function.comp_def]
    rw [hstep, List.map_congr_left hpointwise]
    simp only [concatBlocks, DataFrame.getItem, DataFrame.colCells,
      hcols d (List.mem_cons_self d ds), hi]
    rw [List.filterMap_flatten, List.map_map]
    simp [Function.comp_def]

/-- Witness for claim C1: selecting column b of the example RDD and
collecting is the b projection of the concatenated blocks. -/
theorem getItem_collect_projects_concat_witness :
    ((PRDD.mk exampleRDD).getItem "b").collect
      = some ((concatBlocks exampleRDD.partitions.flatten).getItem "b") :=
  getItem_collect_projects_concat exampleRDD "b" ["a", "b"]
    (by decide) (by decide) (by decide)

/-- Claim C2: elementwise map then collect yields the same block as applying
the function elementwise to the direct concatenation of all blocks (here even
in the same row order). -/
theorem applymap_collect_commutes {α β : Type} (r : RDD (DataFrame α))
    (f : α → β) (hne : r.partitions.flatten ≠ []) :
    ((PRDD.mk r).applymap f).collect
      = some ((concatBlocks r.partitions.flatten).applymap f) := by
  simp only [PRDD.collect, PRDD.applymap, PRDD.fromRDD, appendable_df_eq]
  rw [RDD.reduce_eq_flatten _ _ dfAppend_assoc]
  simp only [RDD.map]
  rw [← List.map_flatten]
  cases hd : r.partitions.flatten with
  | nil => exact absurd hd hne
  | cons d ds =>
    have hstep : lreduce DataFrame.append
        (List.map (fun data => data.applymap f) (d :: ds))
        = some ⟨d.cols, ((d :: ds).map
            (fun df => df.rows.map (List.map f))).flatten⟩ := by
      rw [List.map_cons, lreduce_df_append]
      simp [List.map_map, Function.comp_def, DataFrame.applymap]
    rw [hstep]
    simp only [concatBlocks, DataFrame.applymap]
    rw [List.map_flatten, List.map_map]
    simp [Function.comp_def]

/-- Witness for claim C2: mapping successor over the example RDD then
collecting equals mapping it over the concatenated blocks. -/
theorem applymap_collect_commutes_witness :
    ((PRDD.mk exampleRDD).applymap Nat.succ).collect
      = some ((concatBlocks exampleRDD.partitions.flatten).applymap
          Nat.succ) :=
  applymap_collect_commutes exampleRDD Nat.succ (by decide)

/-- Claim C3: merging the accumulators of two disjoint partitions equals the
accumulator of their union, and merge_stats is associative and (over equal
column labels) commutative, so the pairwise reduction of stats is insensitive
to the reduction order the runtime chooses. -/
theorem stats_merge_homomorphic_assoc_comm :
    (∀ (P1 P2 : List (DataFrame Cell)) (cols : List String)
        (A1 A2 : ColumnStatCounters),
        ColumnStatCounters.make P1 cols = some A1 →
        ColumnStatCounters.make P2 cols = some A2 →
        ColumnStatCounters.make (P1 ++ P2) cols
          = some (A1.merge_stats A2)) ∧
    (∀ a b c : ColumnStatCounters,
        (a.merge_stats b).merge_stats c = a.merge_stats (b.merge_stats c)) ∧
    (∀ a b : ColumnStatCounters,
        a.counters.map Prod.fst = b.counters.map Prod.fst →
        a.merge_stats b = b.merge_stats a) :=
  ⟨make_append, merge_stats_assoc, fun a b h => by
    simp [ColumnStatCounters.merge_stats, zipWith_mergePair_comm _ _ h]⟩

/-- Witness for claim C3: instantiated on two concrete one-block partitions
over column b. -/
theorem stats_merge_homomorphic_assoc_comm_witness :
    ColumnStatCounters.make (statP1 ++ statP2) ["b"]
        = some (statA1.merge_stats statA2)
    ∧ (statA1.merge_stats statA1).merge_stats statA2
        = statA1.merge_stats (statA1.merge_stats statA2)
    ∧ statA1.merge_stats statA2 = statA2.merge_stats statA1 := by
  have h1 : ColumnStatCounters.make statP1 ["b"] = some statA1 := by
    simp [ColumnStatCounters.make, seqOption, partColNums, dfColNums,
      colIndex, counterOfVals, ominList, omaxList, omin, omax, statP1, statA1]
    norm_num
  have h2 : ColumnStatCounters.make statP2 ["b"] = some statA2 := by
    simp [ColumnStatCounters.make, seqOption, partColNums, dfColNums,
      colIndex, counterOfVals, ominList, omaxList, omin, omax, statP2, statA2]
    norm_num
  exact ⟨stats_merge_homomorphic_assoc_comm.1 statP1 statP2 ["b"]
      statA1 statA2 h1 h2,
    stats_merge_homomorphic_assoc_comm.2.1 statA1 statA1 statA2,
    stats_merge_homomorphic_assoc_comm.2.2 statA1 statA2 rfl⟩

/-- Claim C5: stats with an empty column list fails, and more generally a
successful stats call needs a nonempty column list with every requested label
present in every block of every partition. -/
theorem stats_empty_columns_fails :
    (∀ (p : PRDD (DataFrame Cell)), p.stats [] = none) ∧
    (∀ (r : RDD (DataFrame Cell)) (cols : List String)
        (A : ColumnStatCounters),
        (PRDD.mk r).stats cols = some A →
        cols ≠ [] ∧ ∀ df ∈ r.partitions.flatten, ∀ c ∈ cols, c ∈ df.cols) := by
  constructor
  · intro p
    have h : p.stats []
        = (lreduce mergeOpt (p._rdd.partitions.map
            (fun q => ColumnStatCounters.make q []))).join :=
      stats_eq_lreduce p._rdd []
    rw [h]
    have hmk : ∀ q ∈ p._rdd.partitions,
        ColumnStatCounters.make q [] = (none : Option ColumnStatCounters) := by
      intro q _
      rw [ColumnStatCounters.make]
      simp
    rw [List.map_congr_left hmk]
    cases hp : p._rdd.partitions with
    | nil => rfl
    | cons q qs => simp [lreduce, foldl_mergeOpt_none]
  · intro r cols A h
    rw [stats_eq_lreduce r cols] at h
    cases hp : r.partitions with
    | nil => rw [hp] at h; cases h
    | cons p0 ps =>
      rw [hp] at h
      simp only [List.map_cons, lreduce, Option.join] at h
      obtain ⟨h0, hall⟩ := foldl_mergeOpt_some _ _ _ h
      obtain ⟨A0, hA0⟩ := Option.isSome_iff_exists.mp h0
      obtain ⟨hc0, _⟩ := make_some_mem p0 cols A0 hA0
      refine ⟨hc0, ?_⟩
      intro df hdf c hc
      obtain ⟨p, hpmem, hdfp⟩ := List.mem_flatten.mp hdf
      rcases List.mem_cons.mp hpmem with rfl | hpmem2
      · exact (make_some_mem p cols A0 hA0).2 df hdfp c hc
      · have hps := hall (ColumnStatCounters.make p cols)
          (List.mem_map_of_mem _ hpmem2)
        obtain ⟨A1, hA1⟩ := Option.isSome_iff_exists.mp hps
        exact (make_some_mem p cols A1 hA1).2 df hdfp c hc

/-- Witness for claim C5: stats of the scenario wrapper with no columns
fails, while its successful stats call over column b indeed has a nonempty
column list whose label is in every block. -/
theorem stats_empty_columns_fails_witness :
    scenarioPRDD.stats [] = none
    ∧ ((["b"] : List String) ≠ []
        ∧ ∀ df ∈ (⟨[[scenarioDF]]⟩ : RDD (DataFrame Cell)).partitions.flatten,
            ∀ c ∈ (["b"] : List String), c ∈ df.cols) := by
  refine ⟨stats_empty_columns_fails.1 scenarioPRDD,
    stats_empty_columns_fails.2 ⟨[[scenarioDF]]⟩ ["b"] scenarioCSC ?_⟩
  show scenarioPRDD.stats ["b"] = some scenarioCSC
  simp [PRDD.stats, RDD.mapPartitions, RDD.reduce, lreduce,
    ColumnStatCounters.make, seqOption, partColNums, dfColNums, colIndex,
    counterOfVals, ominList, omaxList, omin, omax, scenarioPRDD, scenarioDF,
    scenarioCSC, scenarioCounter, Option.join]
  norm_num

end Pandaspark

